import Mathlib

/-!
Shallow embedding of `src/indic_eval/indic_accelerate.py` (the `main`
orchestration function) and proofs about its control flow.

The file under verification is sequencing glue: it calls external
collaborators (model loader, task registry, evaluator, tracker) in a fixed
order, with two validation sites for the leaderboard email and one for the
language, a coordinator-only finalization block, and a final return.  We embed
one run of `main` as a pure function from the parsed arguments, the optional
distributed accelerator handle, and the externally derived model name, to the
ordered trace of collaborator calls it performs together with either a raised
Python error or the returned value.  External collaborators are modelled as
always succeeding (the orchestrator adds no recovery logic of its own).
-/

namespace IndicEval

/-- Parsed command-line arguments (`args`), restricted to the fields `main`
reads.  Python `None`/empty-string falsiness for the string-valued options is
modelled by `""`; `max_samples` unset is modelled by `0`. -/
structure Args where
  tasks : String
  language : String
  push_to_leaderboard : String
  output_dir : String
  push_results_to_hub : Bool
  pu : Bool
  push_details_to_hub : Bool
  public_run : Bool
  max_samples : Nat
  delta_weights : Bool
  adapter_weights : Bool
  reuse_existing : Bool
deriving DecidableEq

/-- The accelerator handle, when `is_accelerate_available()`: the only field
`main` consults is `is_main_process`. -/
structure Accel where
  is_main_process : Bool
deriving DecidableEq

/-- Externally derived state `main` reads but does not compute: the model name
logged by the tracker (`evaluation_tracker.general_config_logger.model_name`),
used to build the temporary weight-directory names. -/
structure Env where
  modelName : String
deriving DecidableEq

/-- Python exceptions `main` can raise itself: `ValueError` from the three
explicit `raise` statements, and `UnboundLocalError` for a local variable
referenced before assignment. -/
inductive PyError where
  | valueError (msg : String)
  | unboundLocal (var : String)
deriving DecidableEq

/-- The opaque final aggregated result, produced by
`evaluation_tracker.generate_final_dict()` (line 147). -/
inductive FinalDict where
  | mk
deriving DecidableEq

/-- Observable operations `main` performs, in source order: collaborator calls
and the mutation of `args.tasks` in the leaderboard-preset branch.  Pure
`hlog`/`print` logging calls are not traced, except the `max_samples` warning
and the results-table print, which the specification singles out. -/
inductive Event where
  | logArgsInfo
  | maxSamplesWarning
  | testAllGather
  | createModelConfig
  | loadModel
  | logModelInfo
  | tasksRewritten (tasks : String)
  | taskinfoSelector (tasks : String)
  | getTaskDict
  | loadDatasets
  | logTaskConfig
  | createRequests
  | seedRandom (seed : Nat)
  | seedNumpy (seed : Nat)
  | waitForEveryone
  | evaluate
  | logEndTime
  | aggregateMetrics (bootstrapIters : Nat)
  | aggregateDetails
  | save (outputDir : String) (pushResultsToHub : Bool) (pu : Bool)
      (pushDetailsToHub : Bool) (publicRun : Bool)
  | generateFinalDict
  | rmtree (dir : String)
  | printResultsTable
  | pushToLeaderboard
  | modelCleanup
deriving DecidableEq

/-- Split a character list at every occurrence of `sep` (the list-level core of
Python `str.split`): `splitOnChar ',' "a,b"` gives the groups `"a"`, `"b"`. -/
def splitOnChar (sep : Char) : List Char → List (List Char)
  | [] => [[]]
  | c :: rest =>
    match splitOnChar sep rest with
    | [] => if c = sep then [[], []] else [[c]]
    | g :: gs => if c = sep then [] :: g :: gs else (c :: g) :: gs

/-- String-level comma split, used to state what the comma-joined preset
selector decomposes into. -/
def commaSplit (s : String) : List String :=
  (splitOnChar ',' s.toList).map (fun cs => ⟨cs⟩)

/-- Modelled from the spec: `is_valid_email` is imported from
`indic_eval.utils`, which is not part of the source tree.  The spec describes
it as a basic email-shape check whose invalid inputs are values missing an
"@" or whose domain part has no dot. -/
def is_valid_email (s : String) : Bool :=
  match splitOnChar '@' s.toList with
  | [localPart, domainPart] =>
      !localPart.isEmpty && !domainPart.isEmpty && domainPart.contains '.'
  | _ => false

/-- The language allow-list of line 90 (note that it contains "english"). -/
def supportedLanguages : List String :=
  ["kannada", "hindi", "tamil", "telugu", "gujarati", "marathi", "malayalam", "english"]

/-- The fixed benchmark suite of line 93. -/
def leaderboardBenchmarks : List String :=
  ["ARC-Easy", "ARC-Challenge", "Hellaswag", "Boolq", "MMLU"]

/-- The rewritten task selector of line 93:
`",".join(f"indiceval|{benchmark}:{args.language}|5|0" for benchmark in [...])`. -/
def expandedTasks (language : String) : String :=
  String.intercalate (",")
    (leaderboardBenchmarks.map
      (fun benchmark => "indiceval|" ++ benchmark ++ ":" ++ language ++ "|5|0"))

/-- The message of the two `ValueError`s at lines 89 and 167 (both sites use
the identical literal). -/
def emailErrorMsg : String :=
  "The email you have specified for --push_to_leaderboard is not valid"

/-- The message of the `ValueError` at line 95.  Its fixed tail names only
seven languages, although line 90 also accepts "english". -/
def invalidLanguageMsg (language : String) : String :=
  "Invalid language: " ++ language ++
    ". Supported languages are kannada, hindi, tamil, telugu, gujarati, marathi, and malayalam."

/-- Events of lines 58-81: tracker construction logging, the optional
`max_samples` warning, `test_all_gather`, `create_model_config`, and model
loading with its info logged. -/
def preludeEvents (args : Args) : List Event :=
  [Event.logArgsInfo]
    ++ (if args.max_samples ≠ 0 then [Event.maxSamplesWarning] else [])
    ++ [Event.testAllGather, Event.createModelConfig, Event.loadModel, Event.logModelInfo]

/-- Events of lines 97-116 on the non-preset path: `taskinfo_selector`,
`get_task_dict`, `load_datasets`, task-config logging, and
`create_requests_from_tasks`. -/
def taskLoadingEvents (args : Args) : List Event :=
  [Event.taskinfoSelector args.tasks, Event.getTaskDict, Event.loadDatasets,
    Event.logTaskConfig, Event.createRequests]

/-- Events of lines 118-123: both generators seeded with the literal 1234,
then `wait_for_everyone` when an accelerator is present. -/
def seedingEvents (acc : Option Accel) : List Event :=
  [Event.seedRandom 1234, Event.seedNumpy 1234]
    ++ (if acc.isSome then [Event.waitForEveryone] else [])

/-- The truth value of the condition at line 136,
`accelerator.is_main_process if accelerator is not None else nullcontext()`:
without an accelerator the branch tests a fresh `nullcontext()` object, which
is truthy, so the block always runs. -/
def isMainProcess (acc : Option Accel) : Bool :=
  match acc with
  | none => true
  | some a => a.is_main_process

/-- Event of lines 142-145: `evaluation_tracker.save` with its five positional
arguments, only when `args.output_dir` is truthy. -/
def saveEvents (args : Args) : List Event :=
  if args.output_dir ≠ "" then
    [Event.save args.output_dir args.push_results_to_hub args.pu
      args.push_details_to_hub args.public_run]
  else []

/-- Events of lines 151-159: recursive removal of the delta-applied and
adapter-applied temporary weight directories. -/
def weightCleanupEvents (args : Args) (env : Env) : List Event :=
  (if args.delta_weights then [Event.rmtree (env.modelName ++ "-delta-applied")] else [])
    ++ (if args.adapter_weights then [Event.rmtree (env.modelName ++ "-adapter-applied")] else [])

/-- Events of lines 137-161 (the coordinator-only block up to the results
table): end-time logging, metric aggregation with 1000 bootstrap iterations,
details aggregation, the optional save, `generate_final_dict`, temporary
weight cleanup, and the results-table print. -/
def coordinatorEvents (args : Args) (env : Env) : List Event :=
  [Event.logEndTime, Event.aggregateMetrics 1000, Event.aggregateDetails]
    ++ saveEvents args
    ++ [Event.generateFinalDict]
    ++ weightCleanupEvents args env
    ++ [Event.printResultsTable]

/-- Event of lines 170-171: `model.cleanup()` unless `args.reuse_existing`. -/
def modelCleanupEvents (args : Args) : List Event :=
  if !args.reuse_existing then [Event.modelCleanup] else []

/-- The trace of every run that reaches the end of the evaluation stage
(line 134): prelude, task loading, seeding, evaluation. -/
def evaluatedTrace (args : Args) (acc : Option Accel) : List Event :=
  preludeEvents args ++ taskLoadingEvents args ++ seedingEvents acc ++ [Event.evaluate]

/-- One run of `main` (lines 57-173): the ordered trace of performed
operations, paired with the raised error or the Python return value (`none`
models returning `None` by falling off the end of the function).

On the leaderboard-preset path (lines 85-95) the email is validated first,
then the language; on success `args.tasks` is rewritten, but
`task_names_list` is assigned only in the `else` branch (line 98), so
evaluating the arguments of `get_task_dict` at line 99 raises
`UnboundLocalError` before any task is resolved. -/
def main (args : Args) (acc : Option Accel) (env : Env) :
    List Event × Except PyError (Option FinalDict) :=
  if args.tasks = "indic_llm_leadeboard" then
    if is_valid_email args.push_to_leaderboard then
      if args.language ∈ supportedLanguages then
        (preludeEvents args ++ [Event.tasksRewritten (expandedTasks args.language)],
          Except.error (PyError.unboundLocal ("task_names_list")))
      else
        (preludeEvents args, Except.error (PyError.valueError (invalidLanguageMsg args.language)))
    else
      (preludeEvents args, Except.error (PyError.valueError emailErrorMsg))
  else
    if isMainProcess acc then
      if args.push_to_leaderboard ≠ "" then
        if is_valid_email args.push_to_leaderboard then
          (evaluatedTrace args acc ++ coordinatorEvents args env
              ++ [Event.pushToLeaderboard] ++ modelCleanupEvents args,
            Except.ok (some FinalDict.mk))
        else
          (evaluatedTrace args acc ++ coordinatorEvents args env,
            Except.error (PyError.valueError emailErrorMsg))
      else
        (evaluatedTrace args acc ++ coordinatorEvents args env ++ modelCleanupEvents args,
          Except.ok (some FinalDict.mk))
    else
      (evaluatedTrace args acc, Except.ok none)

/-! ### Helper lemmas on the event lists -/

@[simp] lemma mem_preludeEvents (args : Args) (e : Event) :
    e ∈ preludeEvents args ↔
      e = Event.logArgsInfo ∨ (args.max_samples ≠ 0 ∧ e = Event.maxSamplesWarning) ∨
        e = Event.testAllGather ∨ e = Event.createModelConfig ∨
        e = Event.loadModel ∨ e = Event.logModelInfo := by
  unfold preludeEvents
  split <;> simp <;> tauto

@[simp] lemma mem_seedingEvents (acc : Option Accel) (e : Event) :
    e ∈ seedingEvents acc ↔
      e = Event.seedRandom 1234 ∨ e = Event.seedNumpy 1234 ∨
        (acc.isSome = true ∧ e = Event.waitForEveryone) := by
  unfold seedingEvents
  split <;> simp <;> tauto

@[simp] lemma mem_saveEvents (args : Args) (e : Event) :
    e ∈ saveEvents args ↔
      (args.output_dir ≠ "" ∧
        e = Event.save args.output_dir args.push_results_to_hub args.pu
              args.push_details_to_hub args.public_run) := by
  unfold saveEvents
  split <;> simp <;> tauto

@[simp] lemma mem_weightCleanupEvents (args : Args) (env : Env) (e : Event) :
    e ∈ weightCleanupEvents args env ↔
      ((args.delta_weights = true ∧ e = Event.rmtree (env.modelName ++ "-delta-applied")) ∨
        (args.adapter_weights = true ∧ e = Event.rmtree (env.modelName ++ "-adapter-applied"))) := by
  unfold weightCleanupEvents
  rcases h1 : args.delta_weights <;> rcases h2 : args.adapter_weights <;> simp

@[simp] lemma mem_modelCleanupEvents (args : Args) (e : Event) :
    e ∈ modelCleanupEvents args ↔ (args.reuse_existing = false ∧ e = Event.modelCleanup) := by
  unfold modelCleanupEvents
  rcases h : args.reuse_existing <;> simp

@[simp] lemma mem_coordinatorEvents (args : Args) (env : Env) (e : Event) :
    e ∈ coordinatorEvents args env ↔
      e = Event.logEndTime ∨ e = Event.aggregateMetrics 1000 ∨ e = Event.aggregateDetails ∨
        e ∈ saveEvents args ∨ e = Event.generateFinalDict ∨
        e ∈ weightCleanupEvents args env ∨ e = Event.printResultsTable := by
  unfold coordinatorEvents
  simp only [List.mem_append, List.mem_cons, List.mem_singleton, List.not_mem_nil, or_false]
  tauto

/-! ### Branch characterizations of `main` -/

lemma main_preset_bad_email (args : Args) (acc : Option Accel) (env : Env)
    (hpreset : args.tasks = "indic_llm_leadeboard")
    (hbad : is_valid_email args.push_to_leaderboard = false) :
    main args acc env = (preludeEvents args, Except.error (PyError.valueError emailErrorMsg)) := by
  unfold main
  rw [if_pos hpreset, if_neg (by simp [hbad])]

lemma main_preset_bad_language (args : Args) (acc : Option Accel) (env : Env)
    (hpreset : args.tasks = "indic_llm_leadeboard")
    (hvalid : is_valid_email args.push_to_leaderboard = true)
    (hlang : args.language ∉ supportedLanguages) :
    main args acc env
      = (preludeEvents args,
          Except.error (PyError.valueError (invalidLanguageMsg args.language))) := by
  unfold main
  rw [if_pos hpreset, if_pos hvalid, if_neg hlang]

lemma main_preset_unbound_local (args : Args) (acc : Option Accel) (env : Env)
    (hpreset : args.tasks = "indic_llm_leadeboard")
    (hvalid : is_valid_email args.push_to_leaderboard = true)
    (hlang : args.language ∈ supportedLanguages) :
    main args acc env
      = (preludeEvents args ++ [Event.tasksRewritten (expandedTasks args.language)],
          Except.error (PyError.unboundLocal ("task_names_list"))) := by
  unfold main
  rw [if_pos hpreset, if_pos hvalid, if_pos hlang]

lemma main_worker (args : Args) (acc : Option Accel) (env : Env)
    (hnp : args.tasks ≠ "indic_llm_leadeboard")
    (hw : isMainProcess acc = false) :
    main args acc env = (evaluatedTrace args acc, Except.ok none) := by
  unfold main
  rw [if_neg hnp, if_neg (by simp [hw])]

lemma main_coordinator_push_valid (args : Args) (acc : Option Accel) (env : Env)
    (hnp : args.tasks ≠ "indic_llm_leadeboard")
    (hm : isMainProcess acc = true)
    (hset : args.push_to_leaderboard ≠ "")
    (hvalid : is_valid_email args.push_to_leaderboard = true) :
    main args acc env
      = (evaluatedTrace args acc ++ coordinatorEvents args env
            ++ [Event.pushToLeaderboard] ++ modelCleanupEvents args,
          Except.ok (some FinalDict.mk)) := by
  unfold main
  rw [if_neg hnp, if_pos hm, if_pos hset, if_pos hvalid]

lemma main_coordinator_push_invalid (args : Args) (acc : Option Accel) (env : Env)
    (hnp : args.tasks ≠ "indic_llm_leadeboard")
    (hm : isMainProcess acc = true)
    (hset : args.push_to_leaderboard ≠ "")
    (hbad : is_valid_email args.push_to_leaderboard = false) :
    main args acc env
      = (evaluatedTrace args acc ++ coordinatorEvents args env,
          Except.error (PyError.valueError emailErrorMsg)) := by
  unfold main
  rw [if_neg hnp, if_pos hm, if_pos hset, if_neg (by simp [hbad])]

lemma main_coordinator_no_push (args : Args) (acc : Option Accel) (env : Env)
    (hnp : args.tasks ≠ "indic_llm_leadeboard")
    (hm : isMainProcess acc = true)
    (hunset : args.push_to_leaderboard = "") :
    main args acc env
      = (evaluatedTrace args acc ++ coordinatorEvents args env ++ modelCleanupEvents args,
          Except.ok (some FinalDict.mk)) := by
  unfold main
  rw [if_neg hnp, if_pos hm, if_neg (by simp [hunset])]

/-! ### C1: the end-to-end leaderboard-preset scenario -/

/-- The C1 scenario input: tasks="indic_llm_leadeboard", language="telugu",
push_to_leaderboard="user@example.com". -/
def presetRunArgs : Args :=
  { tasks := "indic_llm_leadeboard", language := "telugu",
    push_to_leaderboard := "user@example.com", output_dir := "",
    push_results_to_hub := false, pu := false, push_details_to_hub := false,
    public_run := false, max_samples := 0, delta_weights := false,
    adapter_weights := false, reuse_existing := false }

/-- C1: contrary to the claim, the run configured with
tasks="indic_llm_leadeboard", language="telugu" and a valid email does not
evaluate the five preset tasks and push once: `task_names_list` is assigned
only in the non-preset branch, so after the selector is rewritten the run
raises `UnboundLocalError` at the `get_task_dict` call and never resolves a
task, never evaluates, and never pushes. -/
theorem c1_preset_run_crashes_before_task_resolution :
    (main presetRunArgs none ⟨"model"⟩).2
        = Except.error (PyError.unboundLocal ("task_names_list"))
      ∧ Event.tasksRewritten (expandedTasks ("telugu")) ∈ (main presetRunArgs none ⟨"model"⟩).1
      ∧ Event.getTaskDict ∉ (main presetRunArgs none ⟨"model"⟩).1
      ∧ Event.evaluate ∉ (main presetRunArgs none ⟨"model"⟩).1
      ∧ Event.pushToLeaderboard ∉ (main presetRunArgs none ⟨"model"⟩).1 :=
  ⟨rfl, by decide, by decide, by decide, by decide⟩

/-! ### C2: position of the preset validation failure -/

/-- The C2 counterexample input: leaderboard preset, valid email, unsupported
language "french". -/
def frenchRunArgs : Args :=
  { presetRunArgs with language := "french" }

/-- C2 counterexample: on the leaderboard preset with the unsupported language
"french", the run fails with the validation error as claimed, but model
loading (lines 78-81) has already been performed before the validation at
lines 85-95 runs, so "no model loading is performed before that error" is
false. -/
theorem c2_model_already_loaded_at_validation_failure :
    (main frenchRunArgs none ⟨"model"⟩).2
        = Except.error (PyError.valueError (invalidLanguageMsg ("french")))
      ∧ Event.loadModel ∈ (main frenchRunArgs none ⟨"model"⟩).1 :=
  ⟨rfl, by decide⟩

/-- C2 (amended): on the leaderboard-preset path, an invalid email or an
unsupported language raises a `ValueError` before any task resolution,
dataset loading, or evaluation is performed; model loading, however, has
already happened by then, because the model-loading stage precedes the
tasks-loading stage that hosts the validation. -/
theorem c2_validation_error_precedes_dataset_loading
    (args : Args) (acc : Option Accel) (env : Env)
    (hpreset : args.tasks = "indic_llm_leadeboard")
    (hbad : is_valid_email args.push_to_leaderboard = false ∨
      args.language ∉ supportedLanguages) :
    (∃ msg, (main args acc env).2 = Except.error (PyError.valueError msg))
      ∧ Event.getTaskDict ∉ (main args acc env).1
      ∧ Event.loadDatasets ∉ (main args acc env).1
      ∧ Event.evaluate ∉ (main args acc env).1
      ∧ Event.loadModel ∈ (main args acc env).1 := by
  rcases hbad with hbad | hlang
  · rw [main_preset_bad_email args acc env hpreset hbad]
    refine ⟨⟨emailErrorMsg, rfl⟩, ?_, ?_, ?_, ?_⟩ <;> simp
  · cases hv : is_valid_email args.push_to_leaderboard with
    | false =>
      rw [main_preset_bad_email args acc env hpreset hv]
      refine ⟨⟨emailErrorMsg, rfl⟩, ?_, ?_, ?_, ?_⟩ <;> simp
    | true =>
      rw [main_preset_bad_language args acc env hpreset hv hlang]
      refine ⟨⟨invalidLanguageMsg args.language, rfl⟩, ?_, ?_, ?_, ?_⟩ <;> simp

/-- C2 witness: the amended theorem applied to the concrete "french" run. -/
theorem c2_validation_error_precedes_dataset_loading_witness :
    frenchRunArgs.tasks = "indic_llm_leadeboard"
      ∧ ((∃ msg, (main frenchRunArgs none ⟨"model"⟩).2
            = Except.error (PyError.valueError msg))
        ∧ Event.getTaskDict ∉ (main frenchRunArgs none ⟨"model"⟩).1
        ∧ Event.loadDatasets ∉ (main frenchRunArgs none ⟨"model"⟩).1
        ∧ Event.evaluate ∉ (main frenchRunArgs none ⟨"model"⟩).1
        ∧ Event.loadModel ∈ (main frenchRunArgs none ⟨"model"⟩).1) :=
  ⟨rfl, c2_validation_error_precedes_dataset_loading frenchRunArgs none ⟨"model"⟩ rfl
    (Or.inr (by decide))⟩

/-! ### C3: the return value of `main` -/

/-- A non-preset run configuration used to exercise the evaluation path. -/
def customRunArgs : Args :=
  { presetRunArgs with tasks := "indiceval|Boolq:hindi|5|0", push_to_leaderboard := "" }

/-- C3 counterexample: on a non-coordinating worker (accelerator present,
`is_main_process` false) the run completes without raising yet returns Python
`None` — line 173's `return final_dict` sits inside the coordinator-only
block — refuting "on every worker, coordinating or not". -/
theorem c3_worker_returns_none :
    (main customRunArgs (some ⟨false⟩) ⟨"model"⟩).2 = Except.ok none := by
  rfl

/-- C3 (amended): every run of `main` that completes without raising returns
the dict produced by `generate_final_dict` exactly when it runs the
coordinator block (no accelerator, or `is_main_process` true); a
non-coordinating worker instead falls off the end of the function and returns
`None`. -/
theorem c3_final_dict_returned_only_by_coordinator
    (args : Args) (acc : Option Accel) (env : Env) (d : Option FinalDict)
    (hok : (main args acc env).2 = Except.ok d) :
    d = (if isMainProcess acc then some FinalDict.mk else none)
      ∧ (isMainProcess acc = true →
          Event.generateFinalDict ∈ (main args acc env).1) := by
  by_cases hpreset : args.tasks = "indic_llm_leadeboard"
  · cases hv : is_valid_email args.push_to_leaderboard with
    | false =>
      rw [main_preset_bad_email args acc env hpreset hv] at hok
      exact absurd hok (by simp)
    | true =>
      by_cases hlang : args.language ∈ supportedLanguages
      · rw [main_preset_unbound_local args acc env hpreset hv hlang] at hok
        exact absurd hok (by simp)
      · rw [main_preset_bad_language args acc env hpreset hv hlang] at hok
        exact absurd hok (by simp)
  · cases hm : isMainProcess acc with
    | false =>
      rw [main_worker args acc env hpreset hm] at hok ⊢
      simp only [Except.ok.injEq] at hok
      simp [← hok, hm]
    | true =>
      by_cases hset : args.push_to_leaderboard = ""
      · rw [main_coordinator_no_push args acc env hpreset hm hset] at hok ⊢
        simp only [Except.ok.injEq] at hok
        simp [← hok, hm]
      · cases hv : is_valid_email args.push_to_leaderboard with
        | false =>
          rw [main_coordinator_push_invalid args acc env hpreset hm hset hv] at hok
          exact absurd hok (by simp)
        | true =>
          rw [main_coordinator_push_valid args acc env hpreset hm hset hv] at hok ⊢
          simp only [Except.ok.injEq] at hok
          simp [← hok, hm]

/-- C3 witness: the amended theorem applied to a single-process run of the
custom selector, which returns the final dict. -/
theorem c3_final_dict_returned_only_by_coordinator_witness :
    (main customRunArgs none ⟨"model"⟩).2 = Except.ok (some FinalDict.mk)
      ∧ ((some FinalDict.mk : Option FinalDict)
            = (if isMainProcess none then some FinalDict.mk else none)
        ∧ (isMainProcess (none : Option Accel) = true →
            Event.generateFinalDict ∈ (main customRunArgs none ⟨"model"⟩).1)) :=
  ⟨rfl, c3_final_dict_returned_only_by_coordinator customRunArgs none ⟨"model"⟩
    (some FinalDict.mk) rfl⟩

/-! ### C4: shape of the expanded preset selector -/

/-- C4: for every supported language, the leaderboard preset with a valid
email rewrites the task selector to the comma-join of exactly 5 entries, one
per benchmark in the fixed suite, each of the form
`indiceval|benchmark:language|5|0`. -/
theorem c4_preset_selector_five_entries
    (args : Args) (acc : Option Accel) (env : Env) (l : String)
    (hl : l ∈ supportedLanguages)
    (hpreset : args.tasks = "indic_llm_leadeboard")
    (hvalid : is_valid_email args.push_to_leaderboard = true)
    (hlang : args.language = l) :
    Event.tasksRewritten (expandedTasks l) ∈ (main args acc env).1
      ∧ commaSplit (expandedTasks l)
          = leaderboardBenchmarks.map
              (fun benchmark => "indiceval|" ++ benchmark ++ ":" ++ l ++ "|5|0")
      ∧ (commaSplit (expandedTasks l)).length = 5 := by
  refine ⟨?_, ?_, ?_⟩
  · rw [main_preset_unbound_local args acc env hpreset hvalid (hlang ▸ hl)]
    rw [hlang]
    simp
  · fin_cases hl <;> decide
  · fin_cases hl <;> decide

/-- C4 witness: the expansion for "telugu" in the C1 scenario configuration. -/
theorem c4_preset_selector_five_entries_witness :
    "telugu" ∈ supportedLanguages
      ∧ (Event.tasksRewritten (expandedTasks ("telugu"))
            ∈ (main presetRunArgs none ⟨"model"⟩).1
        ∧ commaSplit (expandedTasks ("telugu"))
            = leaderboardBenchmarks.map
                (fun benchmark => "indiceval|" ++ benchmark ++ ":" ++ "telugu" ++ "|5|0")
        ∧ (commaSplit (expandedTasks ("telugu"))).length = 5) :=
  ⟨by decide, c4_preset_selector_five_entries presetRunArgs none ⟨"model"⟩ "telugu"
    (by decide) rfl (by decide) rfl⟩

/-! ### C5: both email validation sites -/

@[simp] lemma mem_taskLoadingEvents (args : Args) (e : Event) :
    e ∈ taskLoadingEvents args ↔
      e = Event.taskinfoSelector args.tasks ∨ e = Event.getTaskDict ∨
        e = Event.loadDatasets ∨ e = Event.logTaskConfig ∨ e = Event.createRequests := by
  unfold taskLoadingEvents
  simp

/-- C5: for an invalid email value, both reachable validation sites raise the
`ValueError`: the preset-selection branch (line 89) whenever the task
selector equals the preset sentinel, and the final push branch (line 167)
whenever a truthy `push_to_leaderboard` reaches it on the coordinator — in
which case nothing is pushed. -/
theorem c5_invalid_email_fails_both_sites
    (args : Args) (acc : Option Accel) (env : Env)
    (hbad : is_valid_email args.push_to_leaderboard = false) :
    (args.tasks = "indic_llm_leadeboard" →
      (main args acc env).2 = Except.error (PyError.valueError emailErrorMsg))
      ∧ (args.tasks ≠ "indic_llm_leadeboard" → isMainProcess acc = true →
          args.push_to_leaderboard ≠ "" →
          (main args acc env).2 = Except.error (PyError.valueError emailErrorMsg)
            ∧ Event.pushToLeaderboard ∉ (main args acc env).1) := by
  constructor
  · intro hpreset
    rw [main_preset_bad_email args acc env hpreset hbad]
  · intro hnp hm hset
    rw [main_coordinator_push_invalid args acc env hnp hm hset hbad]
    refine ⟨rfl, ?_⟩
    simp [evaluatedTrace]

/-- C5 witness: the preset site for the invalid value "invalid-email", and the
push site for the same value on a coordinator run with a custom selector. -/
theorem c5_invalid_email_fails_both_sites_witness :
    is_valid_email ("invalid-email") = false
      ∧ (main { presetRunArgs with push_to_leaderboard := "invalid-email" } none ⟨"model"⟩).2
          = Except.error (PyError.valueError emailErrorMsg)
      ∧ ((main { customRunArgs with push_to_leaderboard := "invalid-email" } none ⟨"model"⟩).2
            = Except.error (PyError.valueError emailErrorMsg)
        ∧ Event.pushToLeaderboard
            ∉ (main { customRunArgs with push_to_leaderboard := "invalid-email" } none
                ⟨"model"⟩).1) :=
  ⟨by decide,
    (c5_invalid_email_fails_both_sites
      { presetRunArgs with push_to_leaderboard := "invalid-email" } none ⟨"model"⟩
      (by decide)).1 rfl,
    (c5_invalid_email_fails_both_sites
      { customRunArgs with push_to_leaderboard := "invalid-email" } none ⟨"model"⟩
      (by decide)).2 (by decide) rfl (by decide)⟩

/-! ### C6: fixed seeding and determinism -/

/-- C6: two runs with identical inputs are identical (the embedded run is a
pure function of the parsed arguments, the accelerator handle, and the
externally derived model name), and every run that reaches evaluation seeds
both generators with the literal 1234 after model loading and dataset loading
and before the evaluation call, with the barrier in between when an
accelerator is present. -/
theorem c6_fixed_seed_determinism :
    (∀ (a₁ a₂ : Args) (acc₁ acc₂ : Option Accel) (e₁ e₂ : Env),
        a₁ = a₂ → acc₁ = acc₂ → e₁ = e₂ → main a₁ acc₁ e₁ = main a₂ acc₂ e₂)
      ∧ (∀ (args : Args) (acc : Option Accel) (env : Env),
          Event.evaluate ∈ (main args acc env).1 →
            ∃ pre post, (main args acc env).1
                = pre ++ ([Event.seedRandom 1234, Event.seedNumpy 1234]
                    ++ (if acc.isSome then [Event.waitForEveryone] else []))
                  ++ Event.evaluate :: post
              ∧ Event.loadModel ∈ pre ∧ Event.loadDatasets ∈ pre) := by
  constructor
  · intro a₁ a₂ acc₁ acc₂ e₁ e₂ ha hacc he
    rw [ha, hacc, he]
  · intro args acc env hev
    by_cases hpreset : args.tasks = "indic_llm_leadeboard"
    · exfalso
      cases hv : is_valid_email args.push_to_leaderboard with
      | false =>
        rw [main_preset_bad_email args acc env hpreset hv] at hev
        simp at hev
      | true =>
        by_cases hlang : args.language ∈ supportedLanguages
        · rw [main_preset_unbound_local args acc env hpreset hv hlang] at hev
          simp at hev
        · rw [main_preset_bad_language args acc env hpreset hv hlang] at hev
          simp at hev
    · have htail : ∃ tail, (main args acc env).1 = evaluatedTrace args acc ++ tail := by
        cases hm : isMainProcess acc with
        | false =>
          exact ⟨[], by rw [main_worker args acc env hpreset hm]; simp⟩
        | true =>
          by_cases hset : args.push_to_leaderboard = ""
          · exact ⟨coordinatorEvents args env ++ modelCleanupEvents args,
              by rw [main_coordinator_no_push args acc env hpreset hm hset]; simp⟩
          · cases hv : is_valid_email args.push_to_leaderboard with
            | false =>
              exact ⟨coordinatorEvents args env,
                by rw [main_coordinator_push_invalid args acc env hpreset hm hset hv]⟩
            | true =>
              exact ⟨coordinatorEvents args env ++ [Event.pushToLeaderboard]
                  ++ modelCleanupEvents args,
                by rw [main_coordinator_push_valid args acc env hpreset hm hset hv]; simp⟩
      obtain ⟨tail, htail⟩ := htail
      refine ⟨preludeEvents args ++ taskLoadingEvents args, tail, ?_, by simp, by simp⟩
      rw [htail]
      simp [evaluatedTrace, seedingEvents]

/-- C6 witness: the seeding decomposition of a concrete single-process run. -/
theorem c6_fixed_seed_determinism_witness :
    Event.evaluate ∈ (main customRunArgs none ⟨"model"⟩).1
      ∧ ∃ pre post, (main customRunArgs none ⟨"model"⟩).1
            = pre ++ ([Event.seedRandom 1234, Event.seedNumpy 1234]
                ++ (if (none : Option Accel).isSome then [Event.waitForEveryone] else []))
              ++ Event.evaluate :: post
          ∧ Event.loadModel ∈ pre ∧ Event.loadDatasets ∈ pre :=
  ⟨by decide, c6_fixed_seed_determinism.2 customRunArgs none ⟨"model"⟩ (by decide)⟩

/-! ### C7: non-coordinating workers perform no finalization -/

/-- The operations the finalization stage (lines 136-171) owns: end-time
logging, the two aggregations, save, leaderboard push, temporary
weight-directory removal, and model cleanup. -/
def isFinalizationEvent : Event → Bool
  | Event.logEndTime => true
  | Event.aggregateMetrics _ => true
  | Event.aggregateDetails => true
  | Event.save _ _ _ _ _ => true
  | Event.pushToLeaderboard => true
  | Event.rmtree _ => true
  | Event.modelCleanup => true
  | _ => false

lemma prelude_no_finalization (args : Args) :
    ∀ e ∈ preludeEvents args, isFinalizationEvent e = false := by
  intro e he
  rw [mem_preludeEvents] at he
  rcases he with rfl | ⟨-, rfl⟩ | rfl | rfl | rfl | rfl <;> rfl

lemma evaluatedTrace_no_finalization (args : Args) (acc : Option Accel) :
    ∀ e ∈ evaluatedTrace args acc, isFinalizationEvent e = false := by
  intro e he
  unfold evaluatedTrace at he
  simp only [List.mem_append, mem_taskLoadingEvents, mem_seedingEvents,
    List.mem_singleton, mem_preludeEvents] at he
  rcases he with ((he | he) | he) | rfl
  · rcases he with rfl | ⟨-, rfl⟩ | rfl | rfl | rfl | rfl <;> rfl
  · rcases he with rfl | rfl | rfl | rfl | rfl <;> rfl
  · rcases he with rfl | rfl | ⟨-, rfl⟩ <;> rfl
  · rfl

/-- C7: a worker whose `is_main_process` is false performs none of the
finalization operations: no end-time logging, no metrics or details
aggregation, no save, no leaderboard push, no temporary weight-directory
removal, and no model cleanup. -/
theorem c7_nonmain_worker_skips_finalization (args : Args) (w : Accel) (env : Env)
    (hw : w.is_main_process = false) :
    ∀ e ∈ (main args (some w) env).1, isFinalizationEvent e = false := by
  by_cases hpreset : args.tasks = "indic_llm_leadeboard"
  · cases hv : is_valid_email args.push_to_leaderboard with
    | false =>
      rw [main_preset_bad_email args (some w) env hpreset hv]
      exact prelude_no_finalization args
    | true =>
      by_cases hlang : args.language ∈ supportedLanguages
      · rw [main_preset_unbound_local args (some w) env hpreset hv hlang]
        intro e he
        rcases List.mem_append.mp he with hp | he
        · exact prelude_no_finalization args e hp
        · rw [List.mem_singleton.mp he]
          rfl
      · rw [main_preset_bad_language args (some w) env hpreset hv hlang]
        exact prelude_no_finalization args
  · rw [main_worker args (some w) env hpreset (by simp [isMainProcess, hw])]
    exact evaluatedTrace_no_finalization args (some w)

/-- C7 witness: a concrete non-coordinating worker run. -/
theorem c7_nonmain_worker_skips_finalization_witness :
    (Accel.mk false).is_main_process = false
      ∧ ∀ e ∈ (main customRunArgs (some (Accel.mk false)) ⟨"model"⟩).1,
          isFinalizationEvent e = false :=
  ⟨rfl, c7_nonmain_worker_skips_finalization customRunArgs (Accel.mk false) ⟨"model"⟩ rfl⟩

/-! ### C8: "english" is accepted though absent from the error message -/

set_option maxRecDepth 20000

/-- C8: with a valid email, the preset branch accepts the language "english"
and expands the selector for it (running into the same downstream unbound
local as every preset run); the accepted set is exactly the eight
case-sensitive literals of line 90 ("English" is rejected), while the
unsupported-language error message mentions each of the other seven languages
but never "english". -/
theorem c8_english_accepted_but_undocumented (args : Args) (acc : Option Accel) (env : Env)
    (hpreset : args.tasks = "indic_llm_leadeboard")
    (hvalid : is_valid_email args.push_to_leaderboard = true)
    (hlang : args.language = "english") :
    main args acc env
        = (preludeEvents args ++ [Event.tasksRewritten (expandedTasks ("english"))],
            Except.error (PyError.unboundLocal ("task_names_list")))
      ∧ (∀ l, l ∈ supportedLanguages ↔
          (l = "kannada" ∨ l = "hindi" ∨ l = "tamil" ∨ l = "telugu" ∨ l = "gujarati" ∨
            l = "marathi" ∨ l = "malayalam" ∨ l = "english"))
      ∧ "English" ∉ supportedLanguages
      ∧ ¬ List.IsInfix ("english".toList) (invalidLanguageMsg ("french")).toList
      ∧ (∀ l ∈ ["kannada", "hindi", "tamil", "telugu", "gujarati", "marathi", "malayalam"],
          List.IsInfix l.toList (invalidLanguageMsg ("french")).toList) := by
  refine ⟨?_, ?_, by decide, by decide, ?_⟩
  · rw [main_preset_unbound_local args acc env hpreset hvalid (by rw [hlang]; decide),
      hlang]
  · intro l
    simp [supportedLanguages]
  · intro l hl
    fin_cases hl <;> decide

/-- C8 witness: the preset run with language "english" and a valid email. -/
theorem c8_english_accepted_but_undocumented_witness :
    ({ presetRunArgs with language := "english" } : Args).language = "english"
      ∧ main { presetRunArgs with language := "english" } none ⟨"model"⟩
          = (preludeEvents { presetRunArgs with language := "english" }
                ++ [Event.tasksRewritten (expandedTasks ("english"))],
              Except.error (PyError.unboundLocal ("task_names_list"))) :=
  ⟨rfl, (c8_english_accepted_but_undocumented { presetRunArgs with language := "english" }
    none ⟨"model"⟩ rfl (by decide) rfl).1⟩

/-! ### C9: a failed push happens after save and weight cleanup -/

/-- C9: when the coordinator reaches the push stage with a truthy but invalid
`push_to_leaderboard`, by the time the `ValueError` is raised the save (when
`output_dir` is set) and the delta/adapter temporary-directory removals have
already been performed — the trace of operations executed before the raise
contains them — and `model.cleanup` is never invoked on this path. -/
theorem c9_failed_push_preserves_save_and_skips_cleanup
    (args : Args) (acc : Option Accel) (env : Env)
    (hm : isMainProcess acc = true)
    (hnp : args.tasks ≠ "indic_llm_leadeboard")
    (hset : args.push_to_leaderboard ≠ "")
    (hbad : is_valid_email args.push_to_leaderboard = false) :
    (main args acc env).2 = Except.error (PyError.valueError emailErrorMsg)
      ∧ (args.output_dir ≠ "" →
          Event.save args.output_dir args.push_results_to_hub args.pu
              args.push_details_to_hub args.public_run ∈ (main args acc env).1)
      ∧ (args.delta_weights = true →
          Event.rmtree (env.modelName ++ "-delta-applied") ∈ (main args acc env).1)
      ∧ (args.adapter_weights = true →
          Event.rmtree (env.modelName ++ "-adapter-applied") ∈ (main args acc env).1)
      ∧ Event.modelCleanup ∉ (main args acc env).1 := by
  rw [main_coordinator_push_invalid args acc env hnp hm hset hbad]
  refine ⟨rfl, ?_, ?_, ?_, ?_⟩
  · intro hout
    simp [hout]
  · intro hd
    simp [hd]
  · intro ha
    simp [ha]
  · simp [evaluatedTrace]

/-- The C9/C10 scenario input: custom selector, coordinator, output directory
set, both temporary weight directories present, invalid push email. -/
def failedPushArgs : Args :=
  { customRunArgs with
      push_to_leaderboard := "invalid-email"
      output_dir := "/tmp/out"
      delta_weights := true
      adapter_weights := true }

/-- C9 witness: the concrete failing-push coordinator run. -/
theorem c9_failed_push_preserves_save_and_skips_cleanup_witness :
    is_valid_email failedPushArgs.push_to_leaderboard = false
      ∧ ((main failedPushArgs none ⟨"model"⟩).2
            = Except.error (PyError.valueError emailErrorMsg)
        ∧ (failedPushArgs.output_dir ≠ "" →
            Event.save failedPushArgs.output_dir failedPushArgs.push_results_to_hub
                failedPushArgs.pu failedPushArgs.push_details_to_hub failedPushArgs.public_run
              ∈ (main failedPushArgs none ⟨"model"⟩).1)
        ∧ (failedPushArgs.delta_weights = true →
            Event.rmtree ("model" ++ "-delta-applied") ∈ (main failedPushArgs none ⟨"model"⟩).1)
        ∧ (failedPushArgs.adapter_weights = true →
            Event.rmtree ("model" ++ "-adapter-applied")
              ∈ (main failedPushArgs none ⟨"model"⟩).1)
        ∧ Event.modelCleanup ∉ (main failedPushArgs none ⟨"model"⟩).1) :=
  ⟨by decide, c9_failed_push_preserves_save_and_skips_cleanup failedPushArgs none ⟨"model"⟩
    rfl (by decide) (by decide) (by decide)⟩

/-! ### C10: the save call and its five positional arguments -/

/-- Recognizes the `evaluation_tracker.save` call among trace events. -/
def isSaveEvent : Event → Bool
  | Event.save _ _ _ _ _ => true
  | _ => false

lemma not_save_of_not_finalization (e : Event) (h : isFinalizationEvent e = false) :
    isSaveEvent e = false := by
  cases e <;> first | rfl | exact h

lemma filter_save_evaluatedTrace (args : Args) (acc : Option Accel) :
    (evaluatedTrace args acc).filter isSaveEvent = [] := by
  rw [List.filter_eq_nil_iff]
  intro e he
  rw [not_save_of_not_finalization e (evaluatedTrace_no_finalization args acc e he)]
  simp

lemma filter_save_saveEvents (args : Args) :
    (saveEvents args).filter isSaveEvent = saveEvents args := by
  unfold saveEvents
  split <;> rfl

lemma filter_save_weightCleanup (args : Args) (env : Env) :
    (weightCleanupEvents args env).filter isSaveEvent = [] := by
  rw [List.filter_eq_nil_iff]
  intro e he
  rw [mem_weightCleanupEvents] at he
  rcases he with ⟨-, rfl⟩ | ⟨-, rfl⟩ <;> simp [isSaveEvent]

lemma filter_save_modelCleanup (args : Args) :
    (modelCleanupEvents args).filter isSaveEvent = [] := by
  unfold modelCleanupEvents
  split <;> rfl

lemma filter_save_coordinator (args : Args) (env : Env) :
    (coordinatorEvents args env).filter isSaveEvent = saveEvents args := by
  unfold coordinatorEvents
  simp [List.filter_append, filter_save_saveEvents, filter_save_weightCleanup, isSaveEvent]

/-- C10 (amended): whenever `output_dir` is set, a coordinator run that
reaches the finalization stage — one with a non-preset task selector, the
preset path having crashed before finalization — performs exactly one save,
and its five positional arguments are, in order, `output_dir`,
`push_results_to_hub`, `pu`, `push_details_to_hub`, `public_run` — the third
is the attribute `pu` of the parsed argument object. -/
theorem c10_save_exactly_once_with_pu_argument
    (args : Args) (acc : Option Accel) (env : Env)
    (hm : isMainProcess acc = true)
    (hnp : args.tasks ≠ "indic_llm_leadeboard")
    (hout : args.output_dir ≠ "") :
    ((main args acc env).1.filter isSaveEvent)
        = [Event.save args.output_dir args.push_results_to_hub args.pu
            args.push_details_to_hub args.public_run] := by
  have hsave : saveEvents args
      = [Event.save args.output_dir args.push_results_to_hub args.pu
          args.push_details_to_hub args.public_run] := by
    unfold saveEvents
    rw [if_pos hout]
  by_cases hset : args.push_to_leaderboard = ""
  · rw [main_coordinator_no_push args acc env hnp hm hset]
    simp [List.filter_append, filter_save_evaluatedTrace, filter_save_coordinator,
      filter_save_modelCleanup, hsave]
  · cases hv : is_valid_email args.push_to_leaderboard with
    | false =>
      rw [main_coordinator_push_invalid args acc env hnp hm hset hv]
      simp [List.filter_append, filter_save_evaluatedTrace, filter_save_coordinator, hsave]
    | true =>
      rw [main_coordinator_push_valid args acc env hnp hm hset hv]
      simp [List.filter_append, filter_save_evaluatedTrace, filter_save_coordinator,
        filter_save_modelCleanup, isSaveEvent, hsave]

/-- C10 witness: the failing-push coordinator run saves exactly once with the
five positional arguments. -/
theorem c10_save_exactly_once_with_pu_argument_witness :
    failedPushArgs.output_dir ≠ ""
      ∧ ((main failedPushArgs none ⟨"model"⟩).1.filter isSaveEvent)
          = [Event.save failedPushArgs.output_dir failedPushArgs.push_results_to_hub
              failedPushArgs.pu failedPushArgs.push_details_to_hub failedPushArgs.public_run] :=
  ⟨by decide, c10_save_exactly_once_with_pu_argument failedPushArgs none ⟨"model"⟩
    rfl (by decide) (by decide)⟩

/-- A leaderboard-preset run with an output directory set. -/
def presetSavedArgs : Args :=
  { presetRunArgs with output_dir := "/tmp/out" }

/-- C10 counterexample: on a leaderboard-preset run with `output_dir` set, the
coordinating worker performs zero saves — the run crashes at the
`get_task_dict` call before the finalization stage — so "whenever output_dir
is set, save is invoked exactly once" is false as stated. -/
theorem c10_preset_run_with_output_dir_never_saves :
    presetSavedArgs.output_dir ≠ ""
      ∧ isMainProcess (none : Option Accel) = true
      ∧ ((main presetSavedArgs none ⟨"model"⟩).1.filter isSaveEvent) = [] :=
  ⟨by decide, rfl, rfl⟩

end IndicEval
